import Mathlib

/-!
Verification development for `linkedin_people_scraper.py`.

The scraper is shallowly embedded: Python strings become Lean `String`
(with `List Char` workhorses for the character-level primitives), the DOM
seen through Selenium becomes an explicit `Card`/`Page`/`World` model
(a card maps a CSS selector to the first matching element, if any), and
the stateful loops (`extract_profile_data`'s per-field selector loops,
`search_people`'s pagination loop, `go_to_next_page`'s click retries)
become structurally recursive functions.  The CSV export is embedded
together with a CSV reader so that the round-trip property can be stated.
-/

/-! ## Python string primitives -/

/-- Python `str.strip()`: drop leading and trailing whitespace characters. -/
def stripChars (l : List Char) : List Char :=
  ((l.dropWhile Char.isWhitespace).reverse.dropWhile Char.isWhitespace).reverse

/-- `element.text.strip()` on Lean strings. -/
def pyStrip (s : String) : String :=
  String.mk (stripChars s.data)

/-- Python `str.lower()` on a character list. -/
def lowerChars (l : List Char) : List Char :=
  l.map Char.toLower

/-- Accumulator loop behind Python `str.split()` (split on whitespace runs,
no empty tokens). `acc` holds the current token reversed. -/
def splitWSGo : List Char → List Char → List (List Char)
  | [], acc => if acc = [] then [] else [acc.reverse]
  | c :: rest, acc =>
    if c.isWhitespace then
      if acc = [] then splitWSGo rest [] else acc.reverse :: splitWSGo rest []
    else
      splitWSGo rest (c :: acc)

/-- Python `str.split()` with no argument. -/
def pySplitChars (l : List Char) : List (List Char) :=
  splitWSGo l []

/-- Python `tok in hay` (substring containment), executably. -/
def containsTok (hay tok : List Char) : Bool :=
  (List.range (hay.length + 1)).any (fun i => tok.isPrefixOf (hay.drop i))

/-- Substring containment as a proposition: `tok` occurs contiguously in `hay`. -/
def IsSubstr (tok hay : List Char) : Prop :=
  ∃ pre post, hay = pre ++ tok ++ post

/-- Python truthiness of an optional string (`None` and `""` are falsy). -/
def pyTruthy : Option String → Bool
  | none => false
  | some s => s ≠ ""

/-- Python `a or b` on optional strings, as in
`os.getenv('LINKEDIN_USERNAME') or self.config.get('username')`. -/
def pyOr (a b : Option String) : Option String :=
  if pyTruthy a then a else b

/-! ## DOM model

A `Card` is one result card handle; `find sel` models
`element.find_element(By.CSS_SELECTOR, sel)`, returning the first matching
element or `none` (the Python code catches `NoSuchElementException`).
`Elem.text` is the node's text, `Elem.href` models
`get_attribute("href")` (empty when the attribute is missing, which is
falsy exactly like the Python value). -/

structure Elem where
  text : String
  href : String
  deriving DecidableEq

structure Card where
  find : String → Option Elem

/-! ## extract_profile_data (lines 236-339) -/

def name_selectors : List String :=
  ["a[data-test-app-aware-link] span[aria-hidden='true']",
   ".cVuaSJRqbNqHnilutFYDHJuqUTzYMuksamE a span[aria-hidden='true']",
   "a span[aria-hidden='true']",
   ".entity-result__title-text a"]

def link_selectors : List String :=
  ["a[data-test-app-aware-link]",
   ".cVuaSJRqbNqHnilutFYDHJuqUTzYMuksamE a",
   "a[href*='/in/']"]

def title_selectors : List String :=
  [".yfUkKdhgeLpjgQhByLNZHDeqKrdFoVhLu",
   ".entity-result__primary-subtitle",
   "div.t-14.t-black.t-normal"]

def location_selectors : List String :=
  [".zSSJMHVoDKMBnaZNdAshUPZWUHKNuZqwaVUXw",
   "div.t-14.t-normal:not(.t-black)",
   ".entity-result__summary"]

def summary_selectors : List String :=
  [".JPLdZSnfcNtQiDKPYwnBNWcWAqncdkolU",
   ".entity-result__summary",
   "p.t-12.t-black--light"]

/-- One per-field selector loop of `extract_profile_data`:
`for selector in selectors: try: v = find(selector).text.strip();
if v: break; except NoSuchElementException: continue`.
`cur` is the mutable variable's current value; note that a match whose
stripped text is empty overwrites `cur` and continues. -/
def fieldLoop (card : Card) : List String → String → String
  | [], cur => cur
  | sel :: rest, cur =>
    match card.find sel with
    | none => fieldLoop card rest cur
    | some e =>
      let v := pyStrip e.text
      if v = "" then fieldLoop card rest v else v

/-- The profile-link loop: same shape, reads `get_attribute("href")`
without stripping. -/
def urlLoop (card : Card) : List String → String → String
  | [], cur => cur
  | sel :: rest, cur =>
    match card.find sel with
    | none => urlLoop card rest cur
    | some e =>
      if e.href = "" then urlLoop card rest e.href else e.href

structure LinkedInProfile where
  name : String
  title : String
  company : String
  location : String
  profile_url : String
  about : String := ""
  connections : String := ""
  deriving DecidableEq

/-- `extract_profile_data` (lines 236-339): run the five selector loops,
discard the card when the name variable still holds the initial "N/A"
sentinel, otherwise build the record (`company` and `about` both receive
the summary; `connections` keeps its dataclass default `""`). -/
def extract_profile_data (card : Card) : Option LinkedInProfile :=
  let name := fieldLoop card name_selectors "N/A"
  let profile_url := urlLoop card link_selectors ""
  let title := fieldLoop card title_selectors "N/A"
  let location := fieldLoop card location_selectors "N/A"
  let summary := fieldLoop card summary_selectors "N/A"
  if name = "N/A" then none
  else
    some { name := name, title := title, company := summary, location := location,
           profile_url := profile_url, about := summary }

/-- `is_relevant_profile` (lines 341-346). -/
def is_relevant_profile (profile : LinkedInProfile) (job_title : String) : Bool :=
  let job_title_lower := lowerChars job_title.data
  let profile_title_lower := lowerChars profile.title.data
  let keywords := pySplitChars job_title_lower
  keywords.any (fun keyword => containsTok profile_title_lower keyword)

example : is_relevant_profile
    { name := "X", title := "Staff Engineer II", company := "N/A", location := "N/A",
      profile_url := "" } "Senior Engineer" = true := by decide

example : is_relevant_profile
    { name := "X", title := "Product Designer", company := "N/A", location := "N/A",
      profile_url := "" } "Senior Engineer" = false := by decide

/-! ## Pagination model (search_people, lines 156-234; go_to_next_page, lines 377-414)

A `Page` maps a whole-page CSS selector to the list of matching result
cards (`driver.find_elements`).  A `World` fixes one search run's
environment: whether the search URL loads, the page reached after `n`
successful next-clicks, and the state of that page's "Next" control. -/

structure Page where
  elems : String → List Card

/-- The "Next" button as `go_to_next_page` can observe it: absent (no
clickable button within the wait, `TimeoutException`/`NoSuchElementException`),
present but disabled, or clickable with a per-attempt outcome: `succeeds a`
tells whether click attempt `a` reaches staleness of the old button. -/
inductive NextControl where
  | absent
  | disabled
  | clickable (succeeds : Nat → Bool)

structure World where
  loadOk : Bool
  pages : Nat → Page
  next : Nat → NextControl

/-- The retry loop of `go_to_next_page`:
`for attempt in range(max_retries)`, returning `True` on the first attempt
that reaches staleness, `False` when the last attempt
(`attempt == max_retries - 1`) fails, and `False` when the loop body never
runs, falling through to the trailing `return False`. -/
def clickLoop (succeeds : Nat → Bool) (max_retries : Nat) : List Nat → Bool
  | [] => false
  | attempt :: rest =>
    if succeeds attempt then true
    else if attempt = max_retries - 1 then false
    else clickLoop succeeds max_retries rest

/-- `go_to_next_page` (lines 377-414): `False` when no clickable button is
found or the button is disabled, otherwise the retry loop's outcome over
`range(max_retries)`. -/
def go_to_next_page (ctl : NextControl) (max_retries : Nat) : Bool :=
  match ctl with
  | .absent => false
  | .disabled => false
  | .clickable succeeds => clickLoop succeeds max_retries (List.range max_retries)

def selectors_to_try : List String :=
  [".iVQBdbUhhelimibSIqzFwVInEeWYnuzuXYt",
   ".FUnoUCUWHqgqZSnCbQFYlmjMydtKKTZFBI",
   "li.iVQBdbUhhelimibSIqzFwVInEeWYnuzuXYt",
   ".search-results-container li",
   ".reusable-search__result-container",
   "[data-chameleon-result-urn*='member']"]

/-- The whole-page card-selector fallback (lines 193-207):
`profile_elements = driver.find_elements(sel)` for each selector in turn,
stopping at the first non-empty collection; `[]` when every selector
returns an empty collection. -/
def cardLoop (p : Page) : List String → List Card
  | [] => []
  | sel :: rest =>
    if (p.elems sel).isEmpty then cardLoop p rest else p.elems sel

def findCards (p : Page) : List Card :=
  cardLoop p selectors_to_try

/-- One page's extraction pass (lines 214-219): extract every card, keep a
profile only when extraction produced a record and the relevance filter
accepts it. -/
def pageProfiles (p : Page) (job_title : String) : List LinkedInProfile :=
  ((findCards p).filterMap extract_profile_data).filter
    (fun profile => is_relevant_profile profile job_title)

/-- What one run of `search_people` did: the profiles returned, the indices
of the pages whose cards were extracted, and how many page loads the
browser performed (the initial `driver.get` plus one per successful
next-click). -/
structure SearchOutcome where
  profiles : List LinkedInProfile
  extracted : List Nat
  loads : Nat
  deriving DecidableEq

/-- The `while page_count < max_pages` loop of `search_people`
(lines 189-232), with `fuel = max_pages - page_count`: extract the current
page, then either advance (a successful `go_to_next_page` is one more page
load) or break. -/
def searchLoop (w : World) (job_title : String) (max_retries page_count : Nat) :
    Nat → SearchOutcome
  | 0 => ⟨[], [], 0⟩
  | fuel + 1 =>
    let profs := pageProfiles (w.pages page_count) job_title
    if go_to_next_page (w.next page_count) max_retries then
      let rest := searchLoop w job_title max_retries (page_count + 1) fuel
      ⟨profs ++ rest.profiles, page_count :: rest.extracted, 1 + rest.loads⟩
    else
      ⟨profs, [page_count], 0⟩

/-- `search_people` (lines 156-234): a failed navigation to the search URL
returns `[]` for this search (lines 179-181); otherwise the initial page
load (one load) is followed by the pagination loop. -/
def search_people (w : World) (job_title : String) (max_retries max_pages : Nat) :
    SearchOutcome :=
  if w.loadOk then
    let r := searchLoop w job_title max_retries 0 max_pages
    ⟨r.profiles, r.extracted, 1 + r.loads⟩
  else ⟨[], [], 0⟩

/-- The search sequencing of `run_search` (lines 445-458): run every
configured search in order and concatenate the results. -/
def runSearches (specs : List (World × String)) (max_retries max_pages : Nat) :
    List LinkedInProfile :=
  (specs.map (fun spec => (search_people spec.1 spec.2 max_retries max_pages).profiles)).flatten

/-! ## Session driver trace (run_search, lines 440-465; login, lines 100-128)

`run_search` is modelled as the observable event trace it produces plus its
outcome.  `setup_driver` runs first, then `login` navigates to the login
page *before* checking that credentials exist; missing credentials raise
`ValueError("LinkedIn credentials required")`, which propagates out of
`run_search` after the `finally` block has torn the driver down. -/

inductive RunEvent where
  | driverSetup
  | navigate (url : String)
  | submitLogin
  | searchRun (job_title : String)
  | driverQuit
  deriving DecidableEq

inductive RunError where
  | credentialsRequired
  | loginTimeout
  deriving DecidableEq

/-- The credential/login environment: the two environment variables, the two
config entries, and whether the post-login `/feed/` URL signal appears in
time. -/
structure Env where
  envUser : Option String
  envPass : Option String
  cfgUser : Option String
  cfgPass : Option String
  loginSignal : Bool

/-- `login` (lines 100-128): navigate to the login URL, then resolve the
credentials (environment first, config as fallback, Python `or`); raise
when either is missing/empty; otherwise submit and wait for the `/feed/`
signal. -/
def login (e : Env) : List RunEvent × Option RunError :=
  let username := pyOr e.envUser e.cfgUser
  let password := pyOr e.envPass e.cfgPass
  if pyTruthy username = false ∨ pyTruthy password = false then
    ([.navigate "https://www.linkedin.com/login"], some .credentialsRequired)
  else if e.loginSignal then
    ([.navigate "https://www.linkedin.com/login", .submitLogin], none)
  else
    ([.navigate "https://www.linkedin.com/login", .submitLogin], some .loginTimeout)

/-- `run_search` (lines 440-465) as an event trace and outcome:
`setup_driver` always runs first, `login` next; on a login error the
exception propagates (after `driver.quit()` in the `finally` block) and no
search runs; otherwise each configured search runs in order and the driver
is torn down at the end. -/
def run_search (e : Env) (specs : List (World × String)) (max_retries max_pages : Nat) :
    List RunEvent × Except RunError (List LinkedInProfile) :=
  match login e with
  | (levs, some err) => (.driverSetup :: levs ++ [.driverQuit], .error err)
  | (levs, none) =>
    (.driverSetup :: levs ++ specs.map (fun spec => RunEvent.searchRun spec.2)
       ++ [.driverQuit],
     .ok (runSearches specs max_retries max_pages))

/-! ## CSV export (save_to_csv, lines 416-438)

`csv.DictWriter` with the default dialect: fields are separated by `,`,
rows terminated by `\r\n`, and a field is quoted (with inner quotes
doubled) exactly when it contains the delimiter, the quote character or a
line-terminator character (`QUOTE_MINIMAL`).  A CSV reader for the same
dialect is embedded so the round-trip can be stated; the reader carries
explicit fuel (any fuel at least the number of fields resp. rows is
enough, and the top-level readers pass the input length). -/

def needsQuote (f : List Char) : Bool :=
  f.any (fun c => c = ',' || c = '"' || c = '\r' || c = '\n')

def escapeQuotes : List Char → List Char
  | [] => []
  | c :: rest =>
    if c = '"' then '"' :: '"' :: escapeQuotes rest else c :: escapeQuotes rest

def renderField (f : List Char) : List Char :=
  if needsQuote f then '"' :: (escapeQuotes f ++ ['"']) else f

def renderRecord : List (List Char) → List Char
  | [] => []
  | [f] => renderField f
  | f :: rest => renderField f ++ ',' :: renderRecord rest

def renderFile (rows : List (List (List Char))) : List Char :=
  (rows.map (fun r => renderRecord r ++ ['\r', '\n'])).flatten

/-- Read a quoted field's body (the opening quote is already consumed):
a doubled quote is a literal quote, a single quote closes the field. -/
def parseQuoted : List Char → List Char × List Char
  | [] => ([], [])
  | c :: rest =>
    if c = '"' then
      match rest with
      | [] => ([], [])
      | c2 :: rest2 =>
        if c2 = '"' then
          let r := parseQuoted rest2
          ('"' :: r.1, r.2)
        else ([], rest)
    else
      let r := parseQuoted rest
      (c :: r.1, r.2)

/-- Read an unquoted field: stop before a separator or line terminator. -/
def parseUnquoted : List Char → List Char × List Char
  | [] => ([], [])
  | c :: rest =>
    if c = ',' || c = '\r' || c = '\n' then ([], c :: rest)
    else
      let r := parseUnquoted rest
      (c :: r.1, r.2)

/-- A field is quoted exactly when it starts with the quote character. -/
def parseField : List Char → List Char × List Char
  | [] => ([], [])
  | c :: rest =>
    if c = '"' then parseQuoted rest else parseUnquoted (c :: rest)

/-- Read one CSV record; the fuel bounds the number of fields. -/
def parseRecord : Nat → List Char → List (List Char) × List Char
  | 0, input => ([], input)
  | fuel + 1, input =>
    let fr := parseField input
    match fr.2 with
    | [] => ([fr.1], [])
    | c :: rest =>
      if c = ',' then
        let r := parseRecord fuel rest
        (fr.1 :: r.1, r.2)
      else if c = '\r' then
        match rest with
        | [] => ([fr.1], c :: rest)
        | c2 :: rest2 => if c2 = '\n' then ([fr.1], rest2) else ([fr.1], c :: rest)
      else if c = '\n' then ([fr.1], rest)
      else ([fr.1], c :: rest)

/-- Read a whole CSV file; the fuel bounds the number of rows. -/
def parseFile : Nat → List Char → List (List (List Char))
  | 0, _ => []
  | _, [] => []
  | fuel + 1, input =>
    let rr := parseRecord (input.length + 1) input
    rr.1 :: parseFile fuel rr.2

/-- Re-reading the produced file, as `csv.reader` would. -/
def pyCsvRead (s : List Char) : List (List (List Char)) :=
  parseFile (s.length + 1) s

/-- The fixed header of `save_to_csv` (line 422). -/
def csvFieldnames : List (List Char) :=
  ["name".data, "title".data, "company".data, "location".data,
   "profile_url".data, "about".data, "connections".data]

/-- One written row (lines 427-435): the record's fields in header order. -/
def profileRow (p : LinkedInProfile) : List (List Char) :=
  [p.name.data, p.title.data, p.company.data, p.location.data,
   p.profile_url.data, p.about.data, p.connections.data]

/-- `save_to_csv` (lines 416-438): the text written to the file — the
header row, then one row per profile, in order. -/
def save_to_csv (profiles : List LinkedInProfile) : List Char :=
  renderFile (csvFieldnames :: profiles.map profileRow)

example :
    pyCsvRead (save_to_csv
      [{ name := "A,B", title := "x\"y", company := "c", location := "l",
         profile_url := "u", about := "a\r\nb" }]) =
      csvFieldnames ::
        [[("A,B").data, "x\"y".data, "c".data, "l".data, "u".data,
          ("a\r\nb").data, "".data]] := by decide

/-! ## Concrete cards, pages, worlds and environments used in witnesses and
counterexamples -/

/-- A card on which the third name selector matches a node whose text is
whitespace only, and no other selector matches anything. -/
def cardEmptyName : Card :=
  ⟨fun sel => if sel = "a span[aria-hidden='true']" then some ⟨"  ", ""⟩ else none⟩

/-- A card with a name but no title/location/summary/link nodes. -/
def cardNameOnly : Card :=
  ⟨fun sel =>
    if sel = "a[data-test-app-aware-link] span[aria-hidden='true']" then
      some ⟨"Alice", ""⟩
    else none⟩

/-- A card carrying a name and a title. -/
def cardAlice : Card :=
  ⟨fun sel =>
    if sel = "a[data-test-app-aware-link] span[aria-hidden='true']" then
      some ⟨"Alice", ""⟩
    else if sel = ".yfUkKdhgeLpjgQhByLNZHDeqKrdFoVhLu" then
      some ⟨"Engineer", ""⟩
    else none⟩

/-- The record `extract_profile_data` produces from `cardAlice`. -/
def profileAlice : LinkedInProfile :=
  { name := "Alice", title := "Engineer", company := "N/A", location := "N/A",
    profile_url := "", about := "N/A" }

/-- A page whose first card selector yields exactly `cardAlice`. -/
def pageAlice : Page :=
  ⟨fun sel => if sel = ".iVQBdbUhhelimibSIqzFwVInEeWYnuzuXYt" then [cardAlice] else []⟩

/-- A world whose pages are empty and whose "Next" button always works. -/
def worldNextAlways : World :=
  ⟨true, fun _ => ⟨fun _ => []⟩, fun _ => .clickable (fun _ => true)⟩

/-- A world showing `pageAlice` everywhere: the first next-click succeeds,
every next-click on later pages fails on all attempts. -/
def worldStops : World :=
  ⟨true, fun _ => pageAlice,
   fun q => if q = 0 then .clickable (fun _ => true) else .clickable (fun _ => false)⟩

/-- A world whose search URL fails to load. -/
def worldNoLoad : World :=
  ⟨false, fun _ => pageAlice, fun _ => .clickable (fun _ => true)⟩

/-- No credentials anywhere: environment and config both empty. -/
def envNoCreds : Env :=
  ⟨none, none, none, none, false⟩

/-! ## Helper lemmas: the selector loops -/

lemma fieldLoop_all_none (card : Card) (sels : List String) (cur : String)
    (h : ∀ s ∈ sels, card.find s = none) : fieldLoop card sels cur = cur := by
  induction sels with
  | nil => rfl
  | cons s rest ih =>
    have hs : card.find s = none := h s (by simp)
    simp only [fieldLoop, hs]
    exact ih fun s' hs' => h s' (by simp [hs'])

lemma urlLoop_all_none (card : Card) (sels : List String) (cur : String)
    (h : ∀ s ∈ sels, card.find s = none) : urlLoop card sels cur = cur := by
  induction sels with
  | nil => rfl
  | cons s rest ih =>
    have hs : card.find s = none := h s (by simp)
    simp only [urlLoop, hs]
    exact ih fun s' hs' => h s' (by simp [hs'])

/-- On a prefix whose matches all strip to the empty text, the loop either
keeps its current value or degrades it to `""` before reaching the rest. -/
lemma fieldLoop_skip (card : Card) (pre : List String)
    (h : ∀ s ∈ pre, ∀ e, card.find s = some e → pyStrip e.text = "") :
    ∀ rest cur, fieldLoop card (pre ++ rest) cur = fieldLoop card rest cur ∨
      fieldLoop card (pre ++ rest) cur = fieldLoop card rest "" := by
  induction pre with
  | nil => exact fun rest cur => Or.inl rfl
  | cons s pre ih =>
    intro rest cur
    have ih' := ih fun s' hs' => h s' (by simp [hs'])
    cases hf : card.find s with
    | none =>
      simpa only [List.cons_append, fieldLoop, hf] using ih' rest cur
    | some e =>
      have he : pyStrip e.text = "" := h s (by simp) e hf
      simp only [List.cons_append, fieldLoop, hf, he, if_pos rfl]
      exact Or.inr ((ih' rest "").elim id id)

lemma urlLoop_skip (card : Card) (pre : List String)
    (h : ∀ s ∈ pre, ∀ e, card.find s = some e → e.href = "") :
    ∀ rest cur, urlLoop card (pre ++ rest) cur = urlLoop card rest cur ∨
      urlLoop card (pre ++ rest) cur = urlLoop card rest "" := by
  induction pre with
  | nil => exact fun rest cur => Or.inl rfl
  | cons s pre ih =>
    intro rest cur
    have ih' := ih fun s' hs' => h s' (by simp [hs'])
    cases hf : card.find s with
    | none =>
      simpa only [List.cons_append, urlLoop, hf] using ih' rest cur
    | some e =>
      have he : e.href = "" := h s (by simp) e hf
      simp only [List.cons_append, urlLoop, hf, he, if_pos rfl]
      exact Or.inr ((ih' rest "").elim id id)

/-- A hit whose stripped text is non-empty ends the loop at once, whatever
the current value. -/
lemma fieldLoop_hit (card : Card) (sel : String) (post : List String) (e : Elem)
    (hf : card.find sel = some e) (hne : pyStrip e.text ≠ "") :
    ∀ cur, fieldLoop card (sel :: post) cur = pyStrip e.text := by
  intro cur
  simp only [fieldLoop, hf, if_neg hne]

lemma urlLoop_hit (card : Card) (sel : String) (post : List String) (e : Elem)
    (hf : card.find sel = some e) (hne : e.href ≠ "") :
    ∀ cur, urlLoop card (sel :: post) cur = e.href := by
  intro cur
  simp only [urlLoop, hf, if_neg hne]

/-- When every selector fails or strips to empty, the loop ends on the
initial value or on the empty string — never on a non-empty extraction. -/
lemma fieldLoop_all_empty (card : Card) (sels : List String)
    (h : ∀ s ∈ sels, ∀ e, card.find s = some e → pyStrip e.text = "") :
    ∀ cur, fieldLoop card sels cur = cur ∨ fieldLoop card sels cur = "" := by
  induction sels with
  | nil => exact fun cur => Or.inl rfl
  | cons s rest ih =>
    intro cur
    have ih' := ih fun s' hs' => h s' (by simp [hs'])
    cases hf : card.find s with
    | none => simpa only [fieldLoop, hf] using ih' cur
    | some e =>
      have he : pyStrip e.text = "" := h s (by simp) e hf
      simp only [fieldLoop, hf, he, if_pos rfl]
      exact (( ih' "").elim Or.inr Or.inr)

/-! ## C1: a record without a name

The code intends to skip a card whose name could not be extracted (it
checks `name == "N/A"` and even logs "Could not extract name, skipping
profile").  But a name selector that matches a node with whitespace-only
text overwrites the `name` variable with `""`, so the `== "N/A"` check
passes and a record with an empty name is emitted. -/

/-- Claim C1: the code emits a record whose `name` is empty on
`cardEmptyName`, where no name selector resolves to a non-empty trimmed
text — contradicting both directions of the claimed invariant (the card
should produce no record, and every record should carry a non-empty name). -/
theorem c1_empty_name_record :
    extract_profile_data cardEmptyName =
      some { name := "", title := "N/A", company := "N/A", location := "N/A",
             profile_url := "", about := "N/A" } ∧
    ("" : String).length = 0 := by
  constructor
  · decide
  · rfl

/-! ## C6: the sentinel for absent fields -/

/-- Claim C6 counterexample: on a card with a name but no title, location
or summary nodes, the emitted record's unextracted fields hold the
sentinel "N/A", not "unknown" as the claim states. -/
theorem c6_sentinel_is_na :
    extract_profile_data cardNameOnly =
      some { name := "Alice", title := "N/A", company := "N/A", location := "N/A",
             profile_url := "", about := "N/A" } ∧
    ("N/A" : String) ≠ "unknown" := by
  constructor
  · decide
  · decide

/-- Claim C6 (amended): in every emitted record, a title, company/summary
or location field whose selectors all failed to match is set to the
sentinel "N/A" (the code's sentinel, not "unknown"). -/
theorem c6_absent_fields_default (card : Card) (p : LinkedInProfile)
    (hp : extract_profile_data card = some p)
    (ht : ∀ s ∈ title_selectors, card.find s = none)
    (hs : ∀ s ∈ summary_selectors, card.find s = none)
    (hl : ∀ s ∈ location_selectors, card.find s = none) :
    p.title = "N/A" ∧ p.company = "N/A" ∧ p.about = "N/A" ∧ p.location = "N/A" := by
  unfold extract_profile_data at hp
  by_cases hname : fieldLoop card name_selectors "N/A" = "N/A"
  · simp [hname] at hp
  · simp only [if_neg hname, Option.some.injEq] at hp
    subst hp
    refine ⟨?_, ?_, ?_, ?_⟩
    · exact fieldLoop_all_none card title_selectors "N/A" ht
    · exact fieldLoop_all_none card summary_selectors "N/A" hs
    · exact fieldLoop_all_none card summary_selectors "N/A" hs
    · exact fieldLoop_all_none card location_selectors "N/A" hl

/-- Witness for C6 (amended) at `cardNameOnly`. -/
theorem c6_absent_fields_default_witness :
    ({ name := "Alice", title := "N/A", company := "N/A", location := "N/A",
       profile_url := "", about := "N/A" } : LinkedInProfile).title = "N/A" ∧
    ({ name := "Alice", title := "N/A", company := "N/A", location := "N/A",
       profile_url := "", about := "N/A" } : LinkedInProfile).company = "N/A" ∧
    ({ name := "Alice", title := "N/A", company := "N/A", location := "N/A",
       profile_url := "", about := "N/A" } : LinkedInProfile).about = "N/A" ∧
    ({ name := "Alice", title := "N/A", company := "N/A", location := "N/A",
       profile_url := "", about := "N/A" } : LinkedInProfile).location = "N/A" :=
  c6_absent_fields_default cardNameOnly _ (by decide) (by decide) (by decide) (by decide)

/-! ## C4: deterministic priority resolution in the element locator -/

/-- Claim C4 counterexample: on `cardEmptyName` every name selector fails
or yields empty trimmed text, yet the locator loop does not report the
absent marker (the caller's "N/A" default): the empty-text match
overwrote it with `""`. -/
theorem c4_absent_not_reported :
    fieldLoop cardEmptyName name_selectors "N/A" = "" ∧
    ("" : String) ≠ "N/A" := by
  constructor
  · decide
  · decide

/-- Claim C4 (amended): the locator tries patterns in list order and the
earliest pattern yielding a non-empty trimmed text (or non-empty link
attribute) determines the result; when every pattern fails to match the
initial value is reported unchanged; when every pattern fails or yields
empty text the result is that initial value or the empty string — the
empty-text overwrite means the caller's sentinel is not always preserved. -/
theorem c4_priority_order (card : Card) (cur : String) (pre post : List String)
    (sel : String) (e : Elem) :
    (card.find sel = some e → pyStrip e.text ≠ "" →
      (∀ s ∈ pre, ∀ e2, card.find s = some e2 → pyStrip e2.text = "") →
      fieldLoop card (pre ++ sel :: post) cur = pyStrip e.text) ∧
    (card.find sel = some e → e.href ≠ "" →
      (∀ s ∈ pre, ∀ e2, card.find s = some e2 → e2.href = "") →
      urlLoop card (pre ++ sel :: post) cur = e.href) ∧
    ((∀ s ∈ pre ++ sel :: post, card.find s = none) →
      fieldLoop card (pre ++ sel :: post) cur = cur ∧
      urlLoop card (pre ++ sel :: post) cur = cur) ∧
    ((∀ s ∈ pre ++ sel :: post, ∀ e2, card.find s = some e2 → pyStrip e2.text = "") →
      fieldLoop card (pre ++ sel :: post) cur = cur ∨
      fieldLoop card (pre ++ sel :: post) cur = "") := by
  refine ⟨?_, ?_, ?_, ?_⟩
  · intro hf hne hpre
    rcases fieldLoop_skip card pre hpre (sel :: post) cur with h | h <;>
      rw [h, fieldLoop_hit card sel post e hf hne]
  · intro hf hne hpre
    rcases urlLoop_skip card pre hpre (sel :: post) cur with h | h <;>
      rw [h, urlLoop_hit card sel post e hf hne]
  · intro hnone
    exact ⟨fieldLoop_all_none card _ cur hnone, urlLoop_all_none card _ cur hnone⟩
  · intro hempty
    exact fieldLoop_all_empty card _ hempty cur

/-- Witness for C4 (amended): with an earlier selector matching empty text
and a later one matching " Alice ", the locator returns the trimmed value
of the first non-empty hit. -/
theorem c4_priority_order_witness :
    fieldLoop
      ⟨fun sel => if sel = "a" then some ⟨" ", "u"⟩
        else if sel = "b" then some ⟨" Alice ", "v"⟩ else none⟩
      (["a"] ++ "b" :: ["c"]) "N/A" = pyStrip " Alice " :=
  (c4_priority_order
      ⟨fun sel => if sel = "a" then some ⟨" ", "u"⟩
        else if sel = "b" then some ⟨" Alice ", "v"⟩ else none⟩
      "N/A" ["a"] ["c"] "b" ⟨" Alice ", "v"⟩).1
    (by decide) (by decide) (by decide)

/-! ## C2: the relevance filter -/

/-- The executable substring test agrees with the propositional one. -/
lemma containsTok_iff (hay tok : List Char) :
    containsTok hay tok = true ↔ IsSubstr tok hay := by
  unfold containsTok IsSubstr
  rw [List.any_eq_true]
  constructor
  · rintro ⟨i, -, hpre⟩
    rw [ List.isPrefixOf_iff_prefix] at hpre
    rcases hpre with ⟨post, hpost⟩
    refine ⟨hay.take i, post, ?_⟩
    rw [List.append_assoc, hpost, List.take_append_drop]
  · rintro ⟨pre, post, rfl⟩
    refine ⟨pre.length, List.mem_range.mpr ?_, ?_⟩
    · simp only [List.length_append]
      omega
    · rw [ List.isPrefixOf_iff_prefix, List.append_assoc, List.drop_left]
      exact ⟨post, rfl⟩

/-- Claim C2: the relevance filter accepts a record iff some
whitespace-split, lowercased token of the query occurs as a substring of
the record's lowercased title; in particular "Senior Engineer" matches the
title "Staff Engineer II" and does not match "Product Designer". -/
theorem c2_relevance_filter :
    (∀ (profile : LinkedInProfile) (job_title : String),
      is_relevant_profile profile job_title = true ↔
        ∃ tok ∈ pySplitChars (lowerChars job_title.data),
          IsSubstr tok (lowerChars profile.title.data)) ∧
    is_relevant_profile
      { name := "X", title := "Staff Engineer II", company := "N/A",
        location := "N/A", profile_url := "" } "Senior Engineer" = true ∧
    is_relevant_profile
      { name := "X", title := "Product Designer", company := "N/A",
        location := "N/A", profile_url := "" } "Senior Engineer" = false := by
  refine ⟨?_, by decide, by decide⟩
  intro profile job_title
  unfold is_relevant_profile
  rw [List.any_eq_true]
  constructor
  · rintro ⟨tok, htok, hc⟩
    exact ⟨tok, htok, (containsTok_iff _ _).mp hc⟩
  · rintro ⟨tok, htok, hc⟩
    exact ⟨tok, htok, (containsTok_iff _ _).mpr hc⟩

/-! ## C3: the page budget -/

lemma searchLoop_bounds (w : World) (job_title : String) (max_retries : Nat) :
    ∀ fuel page_count,
      (searchLoop w job_title max_retries page_count fuel).extracted.length ≤ fuel ∧
      (searchLoop w job_title max_retries page_count fuel).loads ≤ fuel := by
  intro fuel
  induction fuel with
  | zero => intro pc; exact ⟨Nat.le_refl 0, Nat.le_refl 0⟩
  | succ fuel ih =>
    intro pc
    simp only [searchLoop]
    by_cases hnext : go_to_next_page (w.next pc) max_retries = true
    · rcases ih (pc + 1) with ⟨h1, h2⟩
      simp only [if_pos hnext, List.length_cons]
      omega
    · simp only [if_neg hnext, List.length_cons, List.length_nil]
      omega

/-- Claim C3 counterexample: with `max_pages = 3` and a "Next" control that
always works, the run performs 4 page loads (the initial search page and
three successful next-navigations): the page visited after the third
next-click is loaded before the budget check stops the loop, so more than
`max_pages` pages are visited. -/
theorem c3_budget_exceeded_by_one :
    search_people worldNextAlways "Data Scientist" 3 3 = ⟨[], [0, 1, 2], 4⟩ ∧
    3 < 4 := by
  constructor
  · decide
  · decide

/-- Claim C3 (amended): the pagination loop extracts at most `max_pages`
pages per search, and loads at most `max_pages + 1` pages (when the "Next"
control stays available the loop navigates once more before the budget
check stops it). -/
theorem c3_page_budget (w : World) (job_title : String) (max_retries max_pages : Nat) :
    (search_people w job_title max_retries max_pages).extracted.length ≤ max_pages ∧
    (search_people w job_title max_retries max_pages).loads ≤ max_pages + 1 := by
  unfold search_people
  by_cases hload : w.loadOk = true
  · rcases searchLoop_bounds w job_title max_retries max_pages 0 with ⟨h1, h2⟩
    simp only [if_pos hload]
    exact ⟨h1, by omega⟩
  · simp only [if_neg hload]
    exact ⟨by simp, by simp⟩

/-! ## C5: exhausted next-click retries keep the partial results -/

lemma clickLoop_all_fail (succeeds : Nat → Bool) (max_retries : Nat)
    (h : ∀ a, succeeds a = false) :
    ∀ attempts, clickLoop succeeds max_retries attempts = false := by
  intro attempts
  induction attempts with
  | nil => rfl
  | cons a rest ih =>
    simp only [clickLoop, h a, Bool.false_eq_true, if_false]
    split <;> simp [ih]

lemma go_to_next_page_all_fail (succeeds : Nat → Bool) (max_retries : Nat)
    (h : ∀ a, succeeds a = false) :
    go_to_next_page (.clickable succeeds) max_retries = false :=
  clickLoop_all_fail succeeds max_retries h _

/-- When the first `p - page_count` next-clicks succeed and the one on page
`p` fails, the loop extracts exactly pages `page_count .. p`, in order. -/
lemma searchLoop_stops (w : World) (job_title : String) (max_retries p : Nat)
    (hstop : go_to_next_page (w.next p) max_retries = false)
    (hprev : ∀ q, q < p → go_to_next_page (w.next q) max_retries = true) :
    ∀ fuel page_count, page_count ≤ p → p < page_count + fuel →
      searchLoop w job_title max_retries page_count fuel =
        ⟨((List.range' page_count (p + 1 - page_count)).map
            (fun i => pageProfiles (w.pages i) job_title)).flatten,
          List.range' page_count (p + 1 - page_count), p - page_count⟩ := by
  intro fuel
  induction fuel with
  | zero => intro pc h1 h2; omega
  | succ fuel ih =>
    intro pc h1 h2
    by_cases hpc : pc = p
    · have hs : p + 1 - pc = 1 := by omega
      have hstop' : go_to_next_page (w.next pc) max_retries = false := by
        rw [hpc]; exact hstop
      simp [searchLoop, hstop', hs, List.range', hpc, hstop]
    · have hlt : pc < p := by omega
      have hnext := hprev pc hlt
      have ihr := ih (pc + 1) (by omega) (by omega)
      have hr : p + 1 - pc = (p + 1 - (pc + 1)) + 1 := by omega
      simp only [searchLoop, if_pos hnext, ihr, hr, List.range', List.map_cons,
        List.flatten_cons, SearchOutcome.mk.injEq]
      refine ⟨trivial, trivial, by omega⟩

/-- Claim C5: when all `max_retries` click attempts on page `p`'s "Next"
control fail (and pagination reached page `p`), the search stops there and
returns exactly the relevant records accumulated on pages `0 .. p` — each
page extracted once, no page double-counted, and `p + 1` page loads in
total.  In the embedding the loop body is total, so no exception reaches
the caller. -/
theorem c5_retry_exhaustion_keeps_partial (w : World) (job_title : String)
    (max_retries max_pages p : Nat) (succeeds : Nat → Bool)
    (hload : w.loadOk = true)
    (hp : p < max_pages)
    (hprev : ∀ q, q < p → go_to_next_page (w.next q) max_retries = true)
    (hctl : w.next p = .clickable succeeds)
    (hfail : ∀ a, succeeds a = false) :
    search_people w job_title max_retries max_pages =
      ⟨((List.range (p + 1)).map (fun i => pageProfiles (w.pages i) job_title)).flatten,
        List.range (p + 1), 1 + p⟩ := by
  have hstop : go_to_next_page (w.next p) max_retries = false := by
    rw [hctl]; exact go_to_next_page_all_fail succeeds max_retries hfail
  have h := searchLoop_stops w job_title max_retries p hstop hprev max_pages 0
    (by omega) (by omega)
  unfold search_people
  rw [if_pos hload, h]
  simp [List.range_eq_range']

/-- Witness for C5: in `worldStops` the next-click on page 1 fails on all
attempts, and the search returns the two records extracted on pages 0 and
1 with two page loads. -/
theorem c5_retry_exhaustion_keeps_partial_witness :
    search_people worldStops "engineer" 3 5 = ⟨[profileAlice, profileAlice], [0, 1], 2⟩ := by
  have h := c5_retry_exhaustion_keeps_partial worldStops "engineer" 3 5 1
    (fun _ => false) rfl (by omega)
    (fun q hq => by
      have hq0 : q = 0 := by omega
      subst hq0
      decide)
    rfl (fun a => rfl)
  rw [h]
  decide

/-! ## C7: missing credentials and browser activity -/

/-- Claim C7 counterexample: with no credentials in the environment or the
config, the run does fail fatally with the credentials error, but only
after browser activity has taken place — `setup_driver` ran and the login
page was requested before the credential check (which sits after
`driver.get` inside `login`). -/
theorem c7_creds_checked_after_browser :
    run_search envNoCreds [] 3 5 =
      ([.driverSetup, .navigate "https://www.linkedin.com/login", .driverQuit],
        .error .credentialsRequired) ∧
    RunEvent.driverSetup ∈ (run_search envNoCreds [] 3 5).1 ∧
    RunEvent.navigate "https://www.linkedin.com/login" ∈ (run_search envNoCreds [] 3 5).1 := by
  refine ⟨rfl, ?_, ?_⟩ <;> decide

/-- Claim C7 (amended): when neither the environment variables nor the
config yield a truthy username and password, the run fails fatally with
the credentials error and no search is executed — but the abort happens
after the browser is set up and the login page is requested, and the
browser is torn down before the exception propagates (only a missing or
unparsable config file aborts before browser activity, in `__init__`). -/
theorem c7_missing_creds_fatal (e : Env) (specs : List (World × String))
    (max_retries max_pages : Nat)
    (h : pyTruthy (pyOr e.envUser e.cfgUser) = false ∨
      pyTruthy (pyOr e.envPass e.cfgPass) = false) :
    run_search e specs max_retries max_pages =
      ([.driverSetup, .navigate "https://www.linkedin.com/login", .driverQuit],
        .error .credentialsRequired) ∧
    ∀ jt, RunEvent.searchRun jt ∉ (run_search e specs max_retries max_pages).1 := by
  have hlogin : login e =
      ([.navigate "https://www.linkedin.com/login"], some .credentialsRequired) := by
    unfold login
    rw [if_pos]
    exact h
  have hrun : run_search e specs max_retries max_pages =
      ([.driverSetup, .navigate "https://www.linkedin.com/login", .driverQuit],
        .error .credentialsRequired) := by
    unfold run_search
    rw [hlogin]
    rfl
  refine ⟨hrun, ?_⟩
  intro jt
  rw [hrun]
  simp

/-- Witness for C7 (amended) at `envNoCreds` with one configured search. -/
theorem c7_missing_creds_fatal_witness :
    run_search envNoCreds [(worldStops, "engineer")] 3 5 =
      ([.driverSetup, .navigate "https://www.linkedin.com/login", .driverQuit],
        .error .credentialsRequired) ∧
    ∀ jt, RunEvent.searchRun jt ∉
      (run_search envNoCreds [(worldStops, "engineer")] 3 5).1 :=
  c7_missing_creds_fatal envNoCreds [(worldStops, "engineer")] 3 5 (Or.inl rfl)

/-! ## C8: a failed page load is recoverable at the search level -/

/-- Claim C8: a search whose page fails to load returns the empty result
collection, and a run containing it still performs every other configured
search: its contribution to the concatenated output is exactly empty. -/
theorem c8_nav_failure_recoverable (pre post : List (World × String)) (w : World)
    (job_title : String) (max_retries max_pages : Nat)
    (h : w.loadOk = false) :
    (search_people w job_title max_retries max_pages).profiles = [] ∧
    runSearches (pre ++ (w, job_title) :: post) max_retries max_pages =
      runSearches pre max_retries max_pages ++ runSearches post max_retries max_pages := by
  have hempty : (search_people w job_title max_retries max_pages).profiles = [] := by
    unfold search_people
    rw [if_neg (by simp [h])]
  refine ⟨hempty, ?_⟩
  unfold runSearches
  rw [List.map_append, List.map_cons, List.flatten_append, List.flatten_cons, hempty]
  simp

/-- Witness for C8 with a concrete failing world between two succeeding
searches. -/
theorem c8_nav_failure_recoverable_witness :
    (search_people worldNoLoad "engineer" 3 5).profiles = [] ∧
    runSearches ([(worldStops, "engineer")] ++ (worldNoLoad, "engineer") ::
        [(worldStops, "engineer")]) 3 5 =
      runSearches [(worldStops, "engineer")] 3 5 ++
        runSearches [(worldStops, "engineer")] 3 5 :=
  c8_nav_failure_recoverable [(worldStops, "engineer")] [(worldStops, "engineer")]
    worldNoLoad "engineer" 3 5 rfl

/-! ## C10: an empty or whitespace-only query matches nothing -/

lemma toLower_whitespace (c : Char) (h : c.isWhitespace = true) :
    (Char.toLower c).isWhitespace = true := by
  simp only [Char.isWhitespace, Bool.or_eq_true, decide_eq_true_eq] at h
  rcases h with ((h | h) | h) | h <;> subst h <;> decide

lemma splitWSGo_all_ws (l : List Char) (h : ∀ c ∈ l, c.isWhitespace = true) :
    splitWSGo l [] = [] := by
  induction l with
  | nil => rfl
  | cons c rest ih =>
    have hc : c.isWhitespace = true := h c (by simp)
    simp only [splitWSGo, hc, if_pos rfl, if_true]
    exact ih fun c' hc' => h c' (by simp [hc'])

lemma pySplitChars_ws (l : List Char) (h : ∀ c ∈ l, c.isWhitespace = true) :
    pySplitChars (lowerChars l) = [] := by
  refine splitWSGo_all_ws _ ?_
  intro c hc
  rcases List.mem_map.mp hc with ⟨c0, hc0, rfl⟩
  exact toLower_whitespace c0 (h c0 hc0)

lemma searchLoop_profiles_nil (w : World) (job_title : String) (max_retries : Nat)
    (h : ∀ p : Page, pageProfiles p job_title = []) :
    ∀ fuel page_count,
      (searchLoop w job_title max_retries page_count fuel).profiles = [] := by
  intro fuel
  induction fuel with
  | zero => intro pc; rfl
  | succ fuel ih =>
    intro pc
    simp only [searchLoop]
    by_cases hnext : go_to_next_page (w.next pc) max_retries = true
    · simp [if_pos hnext, h, ih (pc + 1)]
    · simp [if_neg hnext, h]

/-- Claim C10: an empty or whitespace-only job title yields no keyword
tokens, so the relevance filter rejects every record, and a search with
such a query returns no profiles even when cards with valid names are
present. -/
theorem c10_empty_query_matches_nothing (w : World) (job_title : String)
    (max_retries max_pages : Nat)
    (h : ∀ c ∈ job_title.data, c.isWhitespace = true) :
    (∀ profile, is_relevant_profile profile job_title = false) ∧
    (search_people w job_title max_retries max_pages).profiles = [] := by
  have hrel : ∀ profile, is_relevant_profile profile job_title = false := by
    intro profile
    unfold is_relevant_profile
    simp only []
    rw [pySplitChars_ws job_title.data h]
    rfl
  refine ⟨hrel, ?_⟩
  have hpage : ∀ p : Page, pageProfiles p job_title = [] := by
    intro p
    unfold pageProfiles
    rw [List.filter_eq_nil_iff]
    intro a _
    simp [hrel a]
  unfold search_people
  by_cases hload : w.loadOk = true
  · rw [if_pos hload]
    exact searchLoop_profiles_nil w job_title max_retries hpage max_pages 0
  · rw [if_neg hload]

/-- Witness for C10: the whitespace-only query "  " returns nothing from
`worldStops`, whose pages carry an extractable, named card. -/
theorem c10_empty_query_matches_nothing_witness :
    (∀ profile, is_relevant_profile profile "  " = false) ∧
    (search_people worldStops "  " 3 5).profiles = [] :=
  c10_empty_query_matches_nothing worldStops "  " 3 5 (by decide)


/-! ## C9: the CSV round-trip -/

lemma parseQuoted_round (f : List Char) :
    ∀ c t, (c = ',' ∨ c = '\r') →
      parseQuoted (escapeQuotes f ++ '"' :: c :: t) = (f, c :: t) := by
  induction f with
  | nil =>
    intro c t hc
    have hcq : ¬c = '"' := by rcases hc with rfl | rfl <;> decide
    rw [escapeQuotes, List.nil_append, parseQuoted.eq_def]
    simp [hcq]
  | cons ch f ih =>
    intro c t hc
    by_cases hch : ch = '"'
    · subst hch
      rw [escapeQuotes]
      simp only [if_pos rfl, List.cons_append]
      rw [parseQuoted.eq_def]
      simp [ih c t hc]
    · rw [escapeQuotes]
      simp only [if_neg hch, List.cons_append]
      rw [parseQuoted.eq_def]
      simp [hch, ih c t hc]

lemma parseUnquoted_round (f : List Char) (hq : needsQuote f = false) :
    ∀ c t, (c = ',' ∨ c = '\r') →
      parseUnquoted (f ++ c :: t) = (f, c :: t) := by
  induction f with
  | nil =>
    intro c t hc
    have hstop : (c = ',' || c = '\r' || c = '\n') = true := by
      rcases hc with rfl | rfl <;> decide
    rw [List.nil_append, parseUnquoted.eq_def]
    simp [hstop]
  | cons ch f ih =>
    intro c t hc
    simp only [needsQuote, List.any_cons, Bool.or_eq_false_iff] at hq
    rcases hq with ⟨hch, hq⟩
    have hch' : (ch = ',' || ch = '\r' || ch = '\n') = false := by
      simp only [Bool.or_eq_false_iff, decide_eq_false_iff_not] at hch ⊢
      tauto
    have ih' := ih (by simpa [needsQuote] using hq) c t hc
    rw [List.cons_append, parseUnquoted.eq_def]
    simp [hch', ih']

lemma parseField_round (f : List Char) :
    ∀ c t, (c = ',' ∨ c = '\r') →
      parseField (renderField f ++ c :: t) = (f, c :: t) := by
  intro c t hc
  by_cases hq : needsQuote f = true
  · have hsh : renderField f ++ c :: t = '"' :: (escapeQuotes f ++ '"' :: c :: t) := by
      simp [renderField, hq, List.append_assoc]
    rw [hsh, parseField.eq_def]
    simp [parseQuoted_round f c t hc]
  · have hq' : needsQuote f = false := by simpa using hq
    cases f with
    | nil =>
      have hcq : ¬c = '"' := by rcases hc with rfl | rfl <;> decide
      have hstop : (c = ',' || c = '\r' || c = '\n') = true := by
        rcases hc with rfl | rfl <;> decide
      rw [show renderField [] ++ c :: t = c :: t by simp [renderField, needsQuote]]
      rw [parseField.eq_def]
      simp only [if_neg hcq]
      rw [parseUnquoted.eq_def]
      simp [hstop]
    | cons ch f' =>
      have hch : ¬ch = '"' := by
        simp only [needsQuote, List.any_cons, Bool.or_eq_false_iff,
          decide_eq_false_iff_not] at hq'
        tauto
      rw [show renderField (ch :: f') ++ c :: t = ch :: (f' ++ c :: t) by
        simp [renderField, hq']]
      rw [parseField.eq_def]
      simp only [if_neg hch]
      exact parseUnquoted_round (ch :: f') hq' c t hc

lemma parseRecord_round :
    ∀ (fs : List (List Char)) (fuel : Nat) (rest : List Char), fs ≠ [] →
      fs.length ≤ fuel →
      parseRecord fuel (renderRecord fs ++ '\r' :: '\n' :: rest) = (fs, rest) := by
  intro fs
  induction fs with
  | nil => intro fuel rest h; exact absurd rfl h
  | cons f fs ih =>
    intro fuel rest _ hlen
    cases fuel with
    | zero => simp at hlen
    | succ fuel =>
      cases fs with
      | nil =>
        have hfield := parseField_round f '\r' ('\n' :: rest) (Or.inr rfl)
        rw [renderRecord, parseRecord]
        simp only [hfield]
        simp
      | cons g gs =>
        have hfield := parseField_round f ','
          (renderRecord (g :: gs) ++ '\r' :: '\n' :: rest) (Or.inl rfl)
        have ihr := ih fuel rest (by simp) (by
          simp only [List.length_cons] at hlen ⊢
          omega)
        rw [renderRecord.eq_3, List.append_assoc, List.cons_append, parseRecord]
        · simp only [hfield]
          simp [ihr]
        · simp

lemma renderRecord_length (fs : List (List Char)) :
    fs.length ≤ (renderRecord fs).length + 1 := by
  induction fs with
  | nil => simp [renderRecord]
  | cons f fs ih =>
    cases fs with
    | nil => simp [renderRecord]
    | cons g gs =>
      rw [renderRecord.eq_3]
      · simp only [List.length_cons, List.length_append] at ih ⊢
        omega
      · simp

lemma parseFile_cons (fuel : Nat) (input : List Char) (h : input ≠ []) :
    parseFile (fuel + 1) input =
      (parseRecord (input.length + 1) input).1 ::
        parseFile fuel (parseRecord (input.length + 1) input).2 := by
  cases input with
  | nil => exact absurd rfl h
  | cons c rest =>
    rw [parseFile]
    simp

lemma renderFile_length (rows : List (List (List Char))) :
    rows.length ≤ (renderFile rows).length := by
  induction rows with
  | nil => simp [renderFile]
  | cons row rows ih =>
    simp only [renderFile, List.map_cons, List.flatten_cons, List.length_cons,
      List.length_append] at ih ⊢
    omega

lemma parseFile_round :
    ∀ (rows : List (List (List Char))) (fuel : Nat), (∀ r ∈ rows, r ≠ []) →
      rows.length ≤ fuel → parseFile fuel (renderFile rows) = rows := by
  intro rows
  induction rows with
  | nil =>
    intro fuel _ _
    cases fuel <;> rfl
  | cons row rows ih =>
    intro fuel hne hlen
    cases fuel with
    | zero => simp at hlen
    | succ fuel =>
      have hshape : renderFile (row :: rows) =
          renderRecord row ++ '\r' :: '\n' :: renderFile rows := by
        simp [renderFile]
      have hinput : renderFile (row :: rows) ≠ [] := by
        rw [hshape]
        intro hcons
        rcases List.append_eq_nil.mp hcons with ⟨-, h2⟩
        simp at h2
      rw [parseFile_cons fuel _ hinput]
      have hfuel : row.length ≤ (renderFile (row :: rows)).length + 1 := by
        have h1 := renderRecord_length row
        have h2 : (renderFile (row :: rows)).length =
            (renderRecord row).length + 2 + (renderFile rows).length := by
          rw [hshape]
          simp [List.length_append]
          omega
        omega
      have hrec := parseRecord_round row ((renderFile (row :: rows)).length + 1)
        (renderFile rows) (hne row (by simp)) hfuel
      rw [hshape] at hrec ⊢
      rw [hrec]
      exact congrArg _ (ih fuel (fun r hr => hne r (by simp [hr]))
        (by simp only [List.length_cons] at hlen; omega))

/-- Claim C9: re-reading the text `save_to_csv` writes for `N` records
yields the fixed 7-column header followed by exactly `N` rows whose field
values equal the records' fields in the order
name, title, company, location, profile_url, about, connections. -/
theorem c9_csv_round_trip (profiles : List LinkedInProfile) :
    pyCsvRead (save_to_csv profiles) = csvFieldnames :: profiles.map profileRow ∧
    (pyCsvRead (save_to_csv profiles)).length = profiles.length + 1 := by
  have hne : ∀ r ∈ csvFieldnames :: profiles.map profileRow, r ≠ [] := by
    intro r hr
    rcases List.mem_cons.mp hr with rfl | hr
    · decide
    · rcases List.mem_map.mp hr with ⟨p, -, rfl⟩
      simp [profileRow]
  have hlen : (csvFieldnames :: profiles.map profileRow).length ≤
      (renderFile (csvFieldnames :: profiles.map profileRow)).length + 1 := by
    have := renderFile_length (csvFieldnames :: profiles.map profileRow)
    omega
  have h := parseFile_round (csvFieldnames :: profiles.map profileRow)
    ((renderFile (csvFieldnames :: profiles.map profileRow)).length + 1) hne hlen
  constructor
  · exact h
  · rw [show pyCsvRead (save_to_csv profiles) =
      csvFieldnames :: profiles.map profileRow from h]
    simp
